import Mathlib

/-!
Verification development for the gsync repository.

The definitions below are a shallow embedding of the Python sources:

* gsync/sync.py        — the sync decision engine (`sizeGate`, `decideEntry`,
  `processEntry`, `runSync`) and its path mapping (`sharedPfx`, `pyReplace`,
  `destfileOf`);
* gsync/gdrive/gdrive.py — the remote drive model (`Node`, `DriveState`,
  `GDrive.mkdir`, `GDrive.upload`, `GDrive.path_exists`, `GDrive.update_content`);
* gsync/fs/localfs.py  — the local backend's timestamp handling
  (`LocalFileSystem.touch`, `LocalFileSystem.last_modified_time`);
* gsync/fs/gdfs.py     — the drive backend adapter (`GDFileSystem.copy_to`).

Machine data is modelled with `Int`/`Nat`/`String`; fallible operations return
`Except GErr`.
-/

/-- Error kinds raised by the Python code: FileNotFoundError and failed
assertions / transport errors. -/
inductive GErr where
  | notFound
  | assertFailed
deriving DecidableEq, Repr

/-! ## Sync engine: options, metadata and the per-entry decision
(gsync/sync.py, `Options` and `__sync`). -/

/-- Embedding of the `Options` TypedDict of gsync/sync.py.  `maxsize` is
`options.get("maxsize")`: `none` when the key is absent, otherwise the
integer from the command line (which may be zero). -/
structure Options where
  recursive : Bool
  checksum : Bool
  dryrun : Bool
  maxsize : Option Int
deriving DecidableEq, Repr

/-- Metadata the engine reads for a file: `size`, `last_modified_time`
(modelled as an integer timestamp) and `md5hash`. -/
structure EntryMeta where
  size : Int
  mtime : Int
  md5 : String
deriving DecidableEq, Repr

/-- Terminal decision of `__sync` for one source entry, one constructor per
printed message: COPYING, UPDATING, TOO BIG...SKIPPING, CHECKSUM
MATCHED...SKIPPING, DEST NEWER...SKIPPING, UP-TO-DATE...SKIPPING. -/
inductive Decision where
  | copyNew
  | overwrite
  | skipTooBig
  | skipChecksumMatched
  | skipDestNewer
  | skipUpToDate
deriving DecidableEq, Repr

/-- The size gate of `__sync`: `if maxsize := options.get("maxsize"): if
size_src > maxsize: ... continue`.  The walrus operator tests Python
truthiness, so the gate is active only when `maxsize` is present and
nonzero. -/
def sizeGate (opts : Options) (srcsize : Int) : Bool :=
  match opts.maxsize with
  | none => false
  | some m => decide (m ≠ 0) && decide (srcsize > m)

/-- Decision logic of the `__sync` loop body of gsync/sync.py, in source
order: size gate, then destination existence (`dest = none` means
`destination.exists(destfile)` is false), then the checksum policy, then the
metadata (modified-time, then size) policy. -/
def decideEntry (opts : Options) (src : EntryMeta) (dest : Option EntryMeta) : Decision :=
  if sizeGate opts src.size then .skipTooBig
  else
    match dest with
    | none => .copyNew
    | some d =>
      if opts.checksum then
        if src.md5 = d.md5 then .skipChecksumMatched else .overwrite
      else
        if src.mtime > d.mtime then .overwrite
        else if src.mtime < d.mtime then .skipDestNewer
        else if src.size = d.size then .skipUpToDate
        else .overwrite

/-- Destination mutations the engine can issue, in the order the nested
`copy` helper of `__sync` performs them: `destination.copy_to(destfile, ...)`
then `destination.touch(destfile, source.last_modified_time(srcfile))`. -/
inductive Effect where
  | copyTo (destfile : String)
  | touch (destfile : String) (mtime : Int)
deriving DecidableEq, Repr

/-- Whether a decision reaches the `copy` helper of `__sync`. -/
def Decision.isCopy : Decision → Bool
  | .copyNew => true
  | .overwrite => true
  | _ => false

/-- One iteration of the `__sync` loop: the computed (and printed) decision,
together with the list of destination mutations issued.  The `copy` helper
performs its two calls only when `options["dryrun"]` is false. -/
def processEntry (opts : Options) (destfile : String) (src : EntryMeta)
    (dest : Option EntryMeta) : Decision × List Effect :=
  let d := decideEntry opts src dest
  if d.isCopy && !opts.dryrun then
    (d, [Effect.copyTo destfile, Effect.touch destfile src.mtime])
  else
    (d, [])

/-! ## Claims C1, C2, C3 -/

/-- C1: with the checksum option unset and the destination present, and the
size gate not firing, the engine follows the metadata policy: source
strictly newer ⇒ overwrite; destination strictly newer ⇒ skip; equal
timestamps ⇒ skip when sizes are equal, overwrite when they differ. -/
theorem metadata_policy_decides (opts : Options) (src d : EntryMeta)
    (hck : opts.checksum = false) (hgate : sizeGate opts src.size = false) :
    (d.mtime < src.mtime → decideEntry opts src (some d) = .overwrite) ∧
    (src.mtime < d.mtime → decideEntry opts src (some d) = .skipDestNewer) ∧
    (src.mtime = d.mtime ∧ src.size = d.size →
      decideEntry opts src (some d) = .skipUpToDate) ∧
    (src.mtime = d.mtime ∧ src.size ≠ d.size →
      decideEntry opts src (some d) = .overwrite) := by
  unfold decideEntry
  rw [hgate, hck]
  refine ⟨fun h1 => ?_, fun h2 => ?_, fun h3 => ?_, fun h4 => ?_⟩
  · simp only [if_false, Bool.false_eq_true]
    rw [if_pos h1]
  · simp only [if_false, Bool.false_eq_true]
    rw [if_neg (by omega), if_pos h2]
  · simp only [if_false, Bool.false_eq_true]
    rw [if_neg (by omega), if_neg (by omega), if_pos h3.2]
  · simp only [if_false, Bool.false_eq_true]
    rw [if_neg (by omega), if_neg (by omega), if_neg h4.2]

/-- Witness for `metadata_policy_decides` at a concrete input. -/
theorem metadata_policy_decides_witness :
    decideEntry ⟨true, false, false, none⟩ ⟨5, 10, "h"⟩ (some ⟨5, 3, "g"⟩) =
      Decision.overwrite :=
  (metadata_policy_decides ⟨true, false, false, none⟩ ⟨5, 10, "h"⟩ ⟨5, 3, "g"⟩
    rfl rfl).1 (by decide)

/-- C2: with dryRun true, no mutation is issued for any entry, while the
decision is still the one `decideEntry` computes. -/
theorem dryrun_no_mutation (opts : Options) (destfile : String)
    (src : EntryMeta) (dest : Option EntryMeta) (h : opts.dryrun = true) :
    (processEntry opts destfile src dest).2 = [] ∧
    (processEntry opts destfile src dest).1 = decideEntry opts src dest := by
  unfold processEntry
  rw [h]
  simp

/-- Witness for `dryrun_no_mutation` on a scenario that would copy under
normal mode (destination absent). -/
theorem dryrun_no_mutation_witness :
    (processEntry ⟨true, false, true, none⟩ "/dst/x" ⟨1, 5, "h"⟩ none).2 = [] ∧
    (processEntry ⟨true, false, true, none⟩ "/dst/x" ⟨1, 5, "h"⟩ none).1 =
      decideEntry ⟨true, false, true, none⟩ ⟨1, 5, "h"⟩ none :=
  dryrun_no_mutation ⟨true, false, true, none⟩ "/dst/x" ⟨1, 5, "h"⟩ none rfl

/-- C3 counterexample: with `maxsize` set to zero, an entry of size 1
(strictly greater than the bound) is not skipped — the walrus-operator
truthiness test disables the gate, and the decision is Copy. -/
theorem maxsize_zero_gate_bypassed :
    (1 : Int) > 0 ∧
    decideEntry ⟨true, false, false, some 0⟩ ⟨1, 0, "h"⟩ none = Decision.copyNew ∧
    decideEntry ⟨true, false, false, some 0⟩ ⟨1, 0, "h"⟩ none ≠ Decision.skipTooBig := by
  refine ⟨by decide, rfl, ?_⟩
  intro hcontra
  exact absurd (rfl.trans hcontra) (by decide)

/-- C3 amended: when `maxsize` is set to a nonzero value and the source
entry's size strictly exceeds it, the entry is skipped unconditionally —
for every destination state and both comparison policies. -/
theorem maxsize_nonzero_skips (opts : Options) (src : EntryMeta)
    (dest : Option EntryMeta) (m : Int) (hm : opts.maxsize = some m)
    (hm0 : m ≠ 0) (hsz : m < src.size) :
    decideEntry opts src dest = .skipTooBig := by
  unfold decideEntry
  have hg : sizeGate opts src.size = true := by
    unfold sizeGate
    rw [hm]
    simp [hm0, hsz]
  rw [hg]
  simp

/-- Witness for `maxsize_nonzero_skips`: checksum mode is on and the
destination exists with identical hash, yet the size gate wins. -/
theorem maxsize_nonzero_skips_witness :
    (Options.mk true true false (some 2)).maxsize = some 2 ∧ (2 : Int) ≠ 0 ∧
      (2 : Int) < 3 ∧
    decideEntry ⟨true, true, false, some 2⟩ ⟨3, 0, "h"⟩ (some ⟨3, 0, "h"⟩) =
      Decision.skipTooBig :=
  ⟨rfl, by decide, by decide,
    maxsize_nonzero_skips ⟨true, true, false, some 2⟩ ⟨3, 0, "h"⟩
      (some ⟨3, 0, "h"⟩) 2 rfl (by decide) (by decide)⟩

/-! ## Path mapping (gsync/sync.py lines 40-41)

`prefix = os.path.commonprefix([source.root, srcfile])` followed by
`destfile = srcfile.replace(prefix, destination.root)`.  Strings are
modelled as their character lists.  `sharedPfx` is `os.path.commonprefix`
on a two-element list (the longest common leading character run);
`pyReplace` is Python's `str.replace` for a nonempty pattern: it scans left
to right and substitutes every non-overlapping occurrence. -/

/-- Embedding of `os.path.commonprefix([a, b])`: the character-wise common
leading run of the two strings. -/
def sharedPfx : List Char → List Char → List Char
  | a :: as, b :: bs => if a = b then a :: sharedPfx as bs else []
  | _, _ => []

/-- Whether `pat` is a leading run of `s` (Python `s.startswith(pat)`),
used to locate the occurrences `str.replace` substitutes. -/
def leadsWith : List Char → List Char → Bool
  | [], _ => true
  | _ :: _, [] => false
  | a :: as, b :: bs => a = b && leadsWith as bs

/-- Embedding of Python `s.replace(old, new)` for a nonempty `old`: scan
left to right, substituting every non-overlapping occurrence.  (For an
empty `old` this returns `s` unchanged; the engine's pattern is the common
root run, nonempty whenever the source root is nonempty.) -/
def pyReplace (s old new : List Char) : List Char :=
  match s with
  | [] => []
  | c :: s1 =>
    if h : old ≠ [] ∧ leadsWith old (c :: s1) = true then
      new ++ pyReplace ((c :: s1).drop old.length) old new
    else
      c :: pyReplace s1 old new
termination_by s.length
decreasing_by
  · have hlen : 0 < old.length := List.length_pos.mpr h.1
    simp only [List.length_drop, List.length_cons]
    omega
  · simp [List.length_cons]

/-- Whether `old` occurs anywhere in `s` (as a contiguous run). -/
def occursIn (old : List Char) : List Char → Bool
  | [] => leadsWith old []
  | c :: s => leadsWith old (c :: s) || occursIn old s

/-- The destination path computed by the `__sync` loop:
`srcfile.replace(os.path.commonprefix([srcroot, srcfile]), destroot)`. -/
def destfileOf (srcroot destroot srcfile : List Char) : List Char :=
  pyReplace srcfile (sharedPfx srcroot srcfile) destroot

theorem sharedPfx_append (r t : List Char) : sharedPfx r (r ++ t) = r := by
  induction r with
  | nil => rfl
  | cons a as ih => simp [sharedPfx, ih]

theorem leadsWith_append (p t : List Char) : leadsWith p (p ++ t) = true := by
  induction p with
  | nil => rfl
  | cons a as ih => simp [leadsWith, ih]

theorem pyReplace_nil (old new : List Char) : pyReplace [] old new = [] := by
  rw [pyReplace.eq_def]

theorem pyReplace_cons (c : Char) (s1 old new : List Char) :
    pyReplace (c :: s1) old new =
      if old ≠ [] ∧ leadsWith old (c :: s1) = true then
        new ++ pyReplace ((c :: s1).drop old.length) old new
      else c :: pyReplace s1 old new := by
  rw [pyReplace.eq_def]
  rfl

theorem pyReplace_front (old t new : List Char) (h : old ≠ []) :
    pyReplace (old ++ t) old new = new ++ pyReplace t old new := by
  match old with
  | [] => exact absurd rfl h
  | a :: as =>
    rw [List.cons_append, pyReplace_cons,
      if_pos ⟨h, by rw [← List.cons_append]; exact leadsWith_append _ t⟩]
    congr 1
    rw [← List.cons_append, List.drop_left]

theorem pyReplace_no_occurrence (old new : List Char) :
    ∀ s : List Char, occursIn old s = false → pyReplace s old new = s := by
  intro s
  induction s with
  | nil => intro _; exact pyReplace_nil old new
  | cons c s1 ih =>
    intro hocc
    rw [occursIn, Bool.or_eq_false_iff] at hocc
    rw [pyReplace_cons, if_neg (by simp [hocc.1]), ih hocc.2]

/-- C4 counterexample: source root "/a", destination root "/d", source entry
"/a/a".  `str.replace` substitutes every occurrence of the common root run,
so the computed destination is "/d/d", not the claimed "/d" ++ "/a". -/
theorem destfile_not_front_only :
    destfileOf ['/', 'a'] ['/', 'd'] (['/', 'a'] ++ ['/', 'a']) ≠
      ['/', 'd'] ++ ['/', 'a'] := by
  unfold destfileOf
  rw [sharedPfx_append, pyReplace_front _ _ _ (by decide)]
  have hx : pyReplace ['/', 'a'] ['/', 'a'] ['/', 'd'] = ['/', 'd'] := by
    rw [pyReplace_cons, if_pos ⟨by decide, by decide⟩]
    show ['/', 'd'] ++ pyReplace [] ['/', 'a'] ['/', 'd'] = ['/', 'd']
    rw [pyReplace_nil]
    rfl
  rw [hx]
  decide

/-- C4 amended: the engine replaces every occurrence of the common root run
in the source entry path; when that run does not occur again past the
front, the result is exactly the destination root followed by the entry
path's suffix beyond the source root. -/
theorem destfile_root_swap (root dest sfx : List Char) (hne : root ≠ [])
    (hocc : occursIn root sfx = false) :
    destfileOf root dest (root ++ sfx) = dest ++ sfx := by
  unfold destfileOf
  rw [sharedPfx_append, pyReplace_front _ _ _ hne,
    pyReplace_no_occurrence _ _ _ hocc]

/-- Witness for `destfile_root_swap` at concrete paths. -/
theorem destfile_root_swap_witness :
    (['/', 'a'] : List Char) ≠ [] ∧
    occursIn ['/', 'a'] ['/', 'b'] = false ∧
    destfileOf ['/', 'a'] ['/', 'd'] (['/', 'a'] ++ ['/', 'b']) =
      ['/', 'd'] ++ ['/', 'b'] :=
  ⟨by decide, by decide,
    destfile_root_swap ['/', 'a'] ['/', 'd'] ['/', 'b'] (by decide) (by decide)⟩

/-! ## Remote drive model (gsync/gdrive/gdrive.py)

Tree nodes are the dicts of `construct_tree`: an id, a name, a `files` list
and a `subfolders` list.  `_path_map` is the path-keyed lookup table.
Network calls are modelled at the interface the code relies on: folder
creation mints a fresh server id (from a counter in the state), a file
upload's server record is a parameter, and a content update succeeds
exactly when the id in the request URL names an existing object. -/

/-- A file record as stored in a node's `files` list and in `_path_map`. -/
structure FileRec where
  id : String
  name : String
deriving DecidableEq, Repr

/-- A tree node of `construct_tree`: `id`, `name`, `files`, `subfolders`. -/
inductive Node where
  | mk (id : String) (name : String) (files : List FileRec) (subfolders : List Node)

def Node.id : Node → String
  | .mk i _ _ _ => i

def Node.name : Node → String
  | .mk _ n _ _ => n

def Node.files : Node → List FileRec
  | .mk _ _ fs _ => fs

def Node.subfolders : Node → List Node
  | .mk _ _ _ ss => ss

/-- A `_path_map` value: either a folder node (identified by its id) or a
file record. -/
inductive PMEntry where
  | folder (id : String)
  | file (rec : FileRec)
deriving DecidableEq, Repr

def PMEntry.id : PMEntry → String
  | .folder i => i
  | .file r => r.id

/-- The in-memory state of a `GDrive` instance after `construct_tree`:
`_tree_root`, `_path_map`, and a counter minting fresh server ids for
objects created during the run. -/
structure DriveState where
  tree : Node
  pathMap : List (String × PMEntry)
  gen : Nat

/-- Python dict lookup `_path_map.get(p, None)`. -/
def pmLookup (m : List (String × PMEntry)) (p : String) : Option PMEntry :=
  match m with
  | [] => none
  | (q, e) :: rest => if q = p then some e else pmLookup rest p

/-- Python dict assignment `_path_map[p] = e`. -/
def pmInsert (m : List (String × PMEntry)) (p : String) (e : PMEntry) :
    List (String × PMEntry) :=
  match m with
  | [] => [(p, e)]
  | (q, e0) :: rest =>
    if q = p then (q, e) :: rest else (q, e0) :: pmInsert rest p e

/-- Python `s.split(sep)` for a one-character separator, on char lists. -/
def splitChars (sep : Char) : List Char → List (List Char)
  | [] => [[]]
  | c :: cs =>
    match splitChars sep cs with
    | [] => [[]]
    | grp :: rest => if c = sep then [] :: grp :: rest else (c :: grp) :: rest

/-- Python `s.split("/")`. -/
def splitSlash (s : String) : List String :=
  (splitChars '/' s.data).map fun l => String.mk l

/-- Python `os.path.dirname` for slash-containing paths: everything before
the last slash. -/
def dirOf (s : String) : String :=
  String.intercalate "/" (splitSlash s).dropLast

/-- Python `os.path.basename` for slash-containing paths: everything after
the last slash. -/
def baseOf (s : String) : String :=
  ((splitSlash s).getLast?).getD ""

/-- Linear scan of `node["subfolders"]` for the first child folder with the
given name, as in the loops of `mkdir` and `path_exists`. -/
def findSubfolder (nm : String) : List Node → Option Node
  | [] => none
  | s :: rest => if s.name = nm then some s else findSubfolder nm rest

/-- Linear scan of `node["files"]` for the first file with the given name,
as in `path_exists`. -/
def findFile (nm : String) : List FileRec → Option FileRec
  | [] => none
  | f :: rest => if f.name = nm then some f else findFile nm rest

/-- The directory-segment walk of `path_exists`: descend from `node`
matching each segment against the current node's subfolders by name. -/
def walkDirs : Node → List String → Option Node
  | node, [] => some node
  | node, d :: rest =>
    match findSubfolder d node.subfolders with
    | some s => walkDirs s rest
    | none => none

/-- Embedding of `GDrive.path_exists` (first component of the returned
tuple, which is all `GDFileSystem.exists` consumes): split the path on
slashes into a prefix, directory segments and a trailing file name; walk
the tree; when the trailing name is nonempty, search the matched
directory's `files`. -/
def GDrive.path_exists (st : DriveState) (gdpath : String) : Bool :=
  match splitSlash gdpath with
  | [] => false
  | [_] => false
  | pfx :: rest =>
    if pfx = "gd:" then
      match walkDirs st.tree rest.dropLast with
      | none => false
      | some node =>
        match (rest.getLast?).getD "" with
        | "" => true
        | nm => (findFile nm node.files).isSome
    else false

/-- Server id minted for the n-th object created during the run. -/
def freshId (g : Nat) : String := "srv" ++ toString g

/-- The node `create_folder` returns: the server record of the new folder
with empty `files` and `subfolders` lists. -/
def mkFolder (g : Nat) (nm : String) : Node := Node.mk (freshId g) nm [] []

def Node.addSub (n : Node) (s : Node) : Node :=
  Node.mk n.id n.name n.files (n.subfolders ++ [s])

/-- Replace the first subfolder with the given name (the in-place mutation
of the matched child in `mkdir`, seen functionally). -/
def replaceSub (nm : String) (s1 : Node) : List Node → List Node
  | [] => []
  | s :: rest => if s.name = nm then s1 :: rest else s :: replaceSub nm s1 rest

/-- The parent-chain loop of `GDrive.mkdir`: walk the remaining directory
segments; descend into an existing child of the same name, otherwise create
it when `mkparents` is true and fail with NotFound when it is false.  After
the segments are exhausted, unconditionally create the leaf folder and
append it (the code does not check whether it already exists).  Returns the
next fresh-id counter, the rebuilt subtree, and the created leaf. -/
def mkdirGo (foldername : String) (mkparents : Bool) :
    Nat → Node → List String → Except GErr (Nat × Node × Node)
  | g, node, [] =>
    let leaf := mkFolder g foldername
    .ok (g + 1, node.addSub leaf, leaf)
  | g, node, d :: rest =>
    match findSubfolder d node.subfolders with
    | some s =>
      (mkdirGo foldername mkparents g s rest).map fun r =>
        (r.1, Node.mk node.id node.name node.files (replaceSub d r.2.1 node.subfolders),
          r.2.2)
    | none =>
      if mkparents then
        (mkdirGo foldername mkparents (g + 1) (mkFolder g d) rest).map fun r =>
          (r.1, node.addSub r.2.1, r.2.2)
      else .error .notFound

/-- Embedding of `GDrive.mkdir`: parse the path as the code does
(`os.path.split(os.path.dirname(path))`, then split the parent string on
slashes), run the parent-chain loop, and register only the leaf folder in
`_path_map` under the original path argument. -/
def GDrive.mkdir (st : DriveState) (path : String) (mkparents : Bool) :
    Except GErr DriveState :=
  if path = "gd:/" then .error .assertFailed
  else
    let foldername := baseOf (dirOf path)
    match splitSlash (dirOf (dirOf path)) with
    | [] => .error .assertFailed
    | pfx :: pdirs =>
      if pfx = "gd:" then
        (mkdirGo foldername mkparents st.gen st.tree pdirs).map fun r =>
          ⟨r.2.1, pmInsert st.pathMap path (PMEntry.folder r.2.2.id), r.1⟩
      else .error .assertFailed

/-- Embedding of `GDrive.upload` (successful network transfer): compute the
parent directory path, create it first when it is not in `_path_map`, look
the parent up, and register the server's file record in `_path_map` under
the destination path.  The tree is not touched.  `newrec` is the record the
server returns for the uploaded file. -/
def GDrive.upload (st : DriveState) (destpath : String) (newrec : FileRec) :
    Except GErr (DriveState × FileRec) :=
  let dirpath := dirOf destpath ++ "/"
  let prepared : Except GErr DriveState :=
    if dirpath ≠ "gd:/" ∧ (pmLookup st.pathMap dirpath).isNone then
      GDrive.mkdir st dirpath true
    else .ok st
  prepared.bind fun st1 =>
    match pmLookup st1.pathMap dirpath with
    | none => .error .notFound
    | some _ =>
      .ok (⟨st1.tree, pmInsert st1.pathMap destpath (PMEntry.file newrec), st1.gen⟩,
        newrec)

/-- Fuel-bounded enumeration of every object reachable from a tree node,
paired with its resolved path, exactly as `construct_tree` resolves paths:
the root is "gd:/", a subfolder's path is its parent's path followed by its
name and a slash, a file's path is its directory's path followed by its
name.  With fuel at least the tree's depth the enumeration is complete. -/
def entriesOf : Nat → Node → String → List (String × String)
  | 0, _, _ => []
  | fuel + 1, node, curr =>
    (curr, node.id) ::
      (node.files.map (fun f => (curr ++ f.name, f.id)) ++
        node.subfolders.flatMap fun s => entriesOf fuel s (curr ++ s.name ++ "/"))

/-- The agreement invariant claimed for `_tree_root` and `_path_map`: every
object reachable from the tree root is in the lookup table under its
resolved path (with the same id), and every table entry names an object
reachable from the tree root at that path. -/
def pathMapAgrees (fuel : Nat) (st : DriveState) : Bool :=
  let ents := entriesOf fuel st.tree "gd:/"
  (ents.all fun pe =>
      match pmLookup st.pathMap pe.1 with
      | some e => e.id == pe.2
      | none => false) &&
  (st.pathMap.all fun pe => ents.any fun qi => qi.1 == pe.1 && qi.2 == pe.2.id)

/-- A freshly constructed drive state for an account with an empty root
folder: `construct_tree` yields the root node and maps "gd:/" to it. -/
def emptyDrive : DriveState :=
  ⟨Node.mk "rootid" "My Drive" [] [], [("gd:/", PMEntry.folder "rootid")], 0⟩

/-- Constructed state for an account whose root holds one folder "a". -/
def driveWithA : DriveState :=
  ⟨Node.mk "rootid" "My Drive" [] [Node.mk "aid" "a" [] []],
   [("gd:/", PMEntry.folder "rootid"), ("gd:/a/", PMEntry.folder "aid")], 0⟩

/-- Constructed state for an account whose root holds one file "a.txt". -/
def driveWithFile : DriveState :=
  ⟨Node.mk "rootid" "My Drive" [FileRec.mk "fid" "a.txt"] [],
   [("gd:/", PMEntry.folder "rootid"), ("gd:/a.txt", PMEntry.file ⟨"fid", "a.txt"⟩)], 0⟩

/-- The ids of the objects the remote service holds for this account; in
the states studied here the tree lists them all (tree depth is below the
fuel bound). -/
def validIds (st : DriveState) : List String :=
  (entriesOf 10 st.tree "gd:/").map Prod.snd

/-- Embedding of `GDrive.update_content`: the PATCH request targets the URL
`upload_api/files/` followed by the `id` argument, so it succeeds exactly
when that argument is the id of an existing object; the returned Bool is
the success flag the code reports. -/
def GDrive.update_content (st : DriveState) (fileid : String) : Bool :=
  (validIds st).contains fileid

/-- Embedding of `GDFileSystem.copy_to` of gsync/fs/gdfs.py: when
`path_exists` reports the destination present, the code calls
`drive.update_content(destination_path, source)` — passing the path string
as the `id` argument; otherwise it uploads.  The Bool is the success flag
of the write. -/
def GDFileSystem.copy_to (st : DriveState) (destpath : String) (newrec : FileRec) :
    Except GErr (DriveState × Bool) :=
  if GDrive.path_exists st destpath then
    .ok (st, GDrive.update_content st destpath)
  else
    (GDrive.upload st destpath newrec).map fun r => (r.1, true)

/-! ## Claims C5, C6, C7, C8 -/

/-- C5 fails on the code: the freshly constructed state satisfies the
tree/lookup-table agreement, but a file upload registers the new record
only in `_path_map` (the parent node's `files` list is untouched), and a
parent-creating mkdir registers only the leaf (the created intermediate
folder "gd:/a/" reaches the tree but not the table). -/
theorem tree_pathmap_agreement_broken :
    pathMapAgrees 5 emptyDrive = true ∧
    (GDrive.upload emptyDrive "gd:/f.txt" ⟨"fid", "f.txt"⟩).map
        (fun r => pathMapAgrees 5 r.1) = Except.ok false ∧
    (GDrive.mkdir emptyDrive "gd:/a/b/" true).map (pathMapAgrees 5) =
      Except.ok false :=
  ⟨rfl, rfl, rfl⟩

/-- C6 fails on the code: after a successful upload the new record sits in
`_path_map`, yet `path_exists` (hence `GDFileSystem.exists`) still reports
the path absent, because it searches the tree's `files` lists and the
upload never inserted the record there. -/
theorem upload_not_seen_by_exists :
    (GDrive.upload emptyDrive "gd:/f.txt" ⟨"fid", "f.txt"⟩).map
        (fun r => (GDrive.path_exists r.1 "gd:/f.txt",
          pmLookup r.1.pathMap "gd:/f.txt")) =
      Except.ok (false, some (PMEntry.file ⟨"fid", "f.txt"⟩)) :=
  rfl

/-- C7 fails on the remote backend: the directory "gd:/a/" already exists,
yet `mkdir` is not a no-op — it unconditionally issues a folder-creation
call and appends a second child named "a" (the code's own TODO notes the
missing existence check). -/
theorem mkdir_existing_creates_duplicate :
    GDrive.path_exists driveWithA "gd:/a/" = true ∧
    (GDrive.mkdir driveWithA "gd:/a/" false).map
        (fun st => st.tree.subfolders.map Node.name) = Except.ok ["a", "a"] :=
  ⟨rfl, rfl⟩

/-- C8 fails on the remote backend: for an existing destination file,
`copy_to` hands the destination path to `update_content`, whose argument is
the object id in the request URL — the write fails (success flag false, no
content overwritten), while the same request with the file's actual id
would succeed. -/
theorem copy_to_existing_overwrite_fails :
    GDrive.path_exists driveWithFile "gd:/a.txt" = true ∧
    GDFileSystem.copy_to driveWithFile "gd:/a.txt" ⟨"gid", "a.txt"⟩ =
      Except.ok (driveWithFile, false) ∧
    GDrive.update_content driveWithFile "fid" = true :=
  ⟨rfl, rfl, rfl⟩

/-! ## Claim C9: the `__sync` loop and per-entry errors -/

/-- Terminal outcome the loop body reports for one entry. -/
inductive Outcome where
  | copied
  | skipped
deriving DecidableEq, Repr

/-- Control flow of the `for srcfile in source.files(...)` loop of
`__sync`: the body runs for each entry in order, and the loop contains no
try/except, so an exception raised by the body propagates and ends the
whole iteration. -/
def runSync (body : String → Except GErr Outcome) :
    List String → Except GErr (List Outcome)
  | [] => .ok []
  | f :: rest =>
    (body f).bind fun o => (runSync body rest).map fun os => o :: os

/-- A loop body whose first entry raises (for example the remote overwrite
of `copy_to` failing, or a FileNotFoundError from `getprop`) and whose
other entries would succeed. -/
def bodyFailsOnFirst (f : String) : Except GErr Outcome :=
  if f = "f1" then .error .notFound else .ok .copied

/-- C9 fails on the code: with two entries where only the first raises, the
run aborts with that error — the second entry, which would succeed, is
never processed and no per-entry failure is recorded. -/
theorem entry_error_aborts_run :
    runSync bodyFailsOnFirst ["f1", "f2"] = .error .notFound ∧
    bodyFailsOnFirst "f2" = .ok .copied :=
  ⟨rfl, rfl⟩

/-! ## Claim C10: local timestamp set/get round trip
(gsync/fs/localfs.py, `touch` and `last_modified_time`) -/

/-- The on-disk modification times the OS stores: path to `st_mtime`,
as an integer POSIX timestamp (`none` when the file does not exist). -/
def MTimeTable : Type := String → Option Int

/-- Embedding of `LocalFileSystem.touch` with an explicit timestamp `t`
(the datetime's `.timestamp()` value): `os.utime` stores `t -
time.timezone`; `tz` is the host's `time.timezone` offset.  `os.utime`
raises FileNotFoundError for a missing path. -/
def LocalFileSystem.touch (tz : Int) (st : MTimeTable) (path : String)
    (t : Int) : Except GErr MTimeTable :=
  match st path with
  | none => .error .notFound
  | some _ => .ok fun q => if q = path then some (t - tz) else st q

/-- Embedding of `LocalFileSystem.last_modified_time`: reads
`os.stat(path).st_mtime + time.timezone` and interprets it as a UTC
timestamp.  `os.stat` raises FileNotFoundError for a missing path. -/
def LocalFileSystem.last_modified_time (tz : Int) (st : MTimeTable)
    (path : String) : Except GErr Int :=
  match st path with
  | none => .error .notFound
  | some m => .ok (m + tz)

/-- C10: for an existing file, `touch` followed by `last_modified_time`
returns the timestamp that was set — the `- time.timezone` of `touch` and
the `+ time.timezone` of `last_modified_time` cancel, for every host
timezone offset. -/
theorem touch_then_lmt_roundtrip (tz : Int) (st : MTimeTable) (p : String)
    (t m0 : Int) (h : st p = some m0) :
    (LocalFileSystem.touch tz st p t).bind
      (fun st1 => LocalFileSystem.last_modified_time tz st1 p) =
      Except.ok t := by
  unfold LocalFileSystem.touch LocalFileSystem.last_modified_time
  rw [h]
  simp [Except.bind]

/-- A one-file local disk used to witness the round trip. -/
def tinyDisk : MTimeTable := fun q => if q = "/tmp/x" then some 0 else none

/-- Witness for `touch_then_lmt_roundtrip` at a concrete disk, timezone
offset 7 and timestamp 100. -/
theorem touch_then_lmt_roundtrip_witness :
    tinyDisk "/tmp/x" = some 0 ∧
    (LocalFileSystem.touch 7 tinyDisk "/tmp/x" 100).bind
      (fun st1 => LocalFileSystem.last_modified_time 7 st1 "/tmp/x") =
      Except.ok 100 :=
  ⟨rfl, touch_then_lmt_roundtrip 7 tinyDisk "/tmp/x" 100 0 rfl⟩
